import Mathlib

/-!
Verification of the sub-events library: a shallow embedding of the classes
SubEvent (src/src/event.ts and src/unnamed/part_000), Subscription
(src/unnamed/part_002), SubEventCount (src/unnamed/part_004) and
EventConsumer (src/unnamed/part_003), with theorems checking the
specification's claims about delivery order, snapshot isolation,
cancellation idempotence, subscriber caps, safe error routing, count-change
events and the consumer facade.

The embedding follows src/unnamed/part_000 (the SubEvent variant in src that
implements the onSubscribe/onCancel hooks) paired with the Subscription of
src/unnamed/part_002, whose constructor signature `(cancel, sub)` matches the
`new Subscription(this._createCancel(sub), sub)` call in that SubEvent.

Modelling conventions:
* Each subscriber record (`ISubscriber`) is identified by a numeric id
  assigned from a counter at subscribe time; the id stands for the identity
  of the record object (used by `indexOf` in `_cancelSub`) and for the
  identity of the callback registered by that particular subscribe call.
* A Subscription handle is represented by its subscriber id.  The set
  `cancelled` of the state holds the ids whose Subscription `_cancel` member
  has been set to null - by `Subscription.cancel`, by `sub.cancel()` inside
  `_cancelSub`, or by `cancelAll`.  `Subscription.live` is the negation of
  membership, exactly `!!this._cancel`.
* Callbacks are modelled as state transformers `Nat -> V -> State -> State × Option E`:
  the callback of subscriber `i`, invoked with the emitted value, may mutate
  the broadcaster state (by subscribing, cancelling, etc.) and may throw an
  error (`some e`).  Emission functions return the trace of invocations
  `(subscriber id, value passed)` in invocation order, which is the
  observable the claims speak about.
* The hooks `onSubscribe`/`onCancel` are modelled by their observable
  effect: `onSubscribe` stores a context-data value for the new subscriber
  (field `data` of the record, spec: "auxiliary context value set by
  onSubscribe and read by onCancel") and each hook invocation is appended to
  a log carrying the context record it received.
-/

namespace SubEvents

/-- Internal structure for each subscriber (interface `ISubscriber` of
event.ts): `id` is the identity of the record (and of the registered
callback), `data` the auxiliary context value (`ISubContext.data`) that the
onSubscribe hook may populate. -/
structure ISubscriber (D : Type) where
  id : Nat
  data : Option D
deriving DecidableEq

/-- Constructor options (interface `IEventOptions` of event.ts): `max` caps
how many subscribers one emission delivers to (0 = no limit); the hooks are
modelled by observable effect: `onSubscribe = some f` means an onSubscribe
hook is configured and stores context data `f id` for subscriber `id`;
`hasOnCancel` tells whether an onCancel hook is configured. -/
structure IEventOptions (D : Type) where
  max : Nat
  onSubscribe : Option (Nat → D)
  hasOnCancel : Bool

/-- State of one SubEvent instance plus the observables of its issued
Subscription handles and hook invocations: `subs` is the internal `_subs`
array (insertion order = notification order); `cancelled` holds the ids
whose Subscription `_cancel` is null; `nextId` is the id that the next
subscribe call will assign; `subLog` records onSubscribe hook invocations
(id, context data stored); `cancelLog` records onCancel hook invocations
(id, context data received). -/
structure SubEventState (D : Type) where
  subs : List (ISubscriber D)
  cancelled : List Nat
  nextId : Nat
  subLog : List (Nat × Option D)
  cancelLog : List (Nat × Option D)
deriving DecidableEq

/-- A freshly constructed SubEvent: `_subs = []`, nothing issued, no hook
invocations. -/
def initialState (D : Type) : SubEventState D := ⟨[], [], 0, [], []⟩

namespace SubEvent

variable {D V E : Type}

/-- `SubEvent.subscribe(cb)`: pushes a fresh subscriber record onto `_subs`,
invokes the onSubscribe hook (if configured) with the new record - the hook
populates the record's context data - and returns the id of the new
Subscription.  (`thisArg` binding of the callback does not affect any
modelled observable.) -/
def subscribe (o : IEventOptions D) (s : SubEventState D) :
    Nat × SubEventState D :=
  let id := s.nextId
  let d : Option D := o.onSubscribe.map fun f => f id
  (id,
    { s with
      subs := s.subs ++ [⟨id, d⟩]
      nextId := id + 1
      subLog := if o.onSubscribe.isSome then s.subLog ++ [(id, d)] else s.subLog })

/-- `get count()`: `this._subs.length`. -/
def count (s : SubEventState D) : Nat := s.subs.length

/-- `SubEvent._getRecipients()`: `this._subs.slice(0, end)` where
`end = this.options.max > 0 ? this.options.max : this._subs.length`. -/
def _getRecipients (o : IEventOptions D) (s : SubEventState D) :
    List (ISubscriber D) :=
  let e := if o.max > 0 then o.max else s.subs.length
  s.subs.take e

/-- `this._subs.splice(this._subs.indexOf(sub), 1)`: removes the record at
the index found for `sub`; when the record is absent, `indexOf` yields -1
and `splice(-1, 1)` removes the LAST element - this case never arises for
states reachable through the public API, but the model keeps the exact
splice semantics. -/
def spliceIndexOf (l : List (ISubscriber D)) (i : Nat) : List (ISubscriber D) :=
  match l.findIdx? (fun x => x.id == i) with
  | some k => l.eraseIdx k
  | none => l.dropLast

/-- `SubEvent._cancelSub(sub)`: splices the record out of `_subs`, calls
`sub.cancel()` (which nulls the owning Subscription's `_cancel`, i.e. marks
the id cancelled), then invokes the onCancel hook (if configured) with the
same context record. -/
def _cancelSub (o : IEventOptions D) (i : Nat) (s : SubEventState D) :
    SubEventState D :=
  let d : Option D := (s.subs.find? (fun x => x.id == i)).bind fun x => x.data
  { s with
    subs := spliceIndexOf s.subs i
    cancelled := s.cancelled ++ [i]
    cancelLog := if o.hasOnCancel then s.cancelLog ++ [(i, d)] else s.cancelLog }

/-- `SubEvent.cancelAll()`: copies `_subs` (when an onCancel hook is
configured), calls `sub.cancel()` on every record (nulling every owning
Subscription's `_cancel`), truncates `_subs`, invokes onCancel for each
copied record, and returns the previous length. -/
def cancelAll (o : IEventOptions D) (s : SubEventState D) :
    Nat × SubEventState D :=
  (s.subs.length,
    { s with
      subs := []
      cancelled := s.cancelled ++ s.subs.map (fun x => x.id)
      cancelLog :=
        if o.hasOnCancel then s.cancelLog ++ s.subs.map (fun x => (x.id, x.data))
        else s.cancelLog })

/-- Iteration core of `emitSync` (`r.forEach(sub => sub.cb(data))`): runs
the callbacks of the snapshot in order, threading the state; a thrown error
(`some e`) aborts the iteration (forEach propagates the exception).  Returns
the trace of invocations `(id, value)`, the final state, and the error, if
one was thrown. -/
def runSync (cb : Nat → V → SubEventState D → SubEventState D × Option E)
    (v : V) :
    List (ISubscriber D) → SubEventState D →
      List (Nat × V) × SubEventState D × Option E
  | [], s => ([], s, none)
  | x :: rest, s =>
    match cb x.id v s with
    | (s', some e) => ([(x.id, v)], s', some e)
    | (s', none) =>
      let t := runSync cb v rest s'
      ((x.id, v) :: t.1, t.2)

/-- `SubEvent.emitSync(data)`: takes the recipient snapshot, invokes each
callback synchronously in snapshot order, and returns `r.length`; an
exception thrown by a callback propagates to the caller (`Except.error`) and
no further callback of the snapshot runs. -/
def emitSync (o : IEventOptions D)
    (cb : Nat → V → SubEventState D → SubEventState D × Option E) (v : V)
    (s : SubEventState D) :
    List (Nat × V) × SubEventState D × Except E Nat :=
  let rcp := _getRecipients o s
  let t := runSync cb v rcp s
  (t.1, t.2.1,
    match t.2.2 with
    | some e => Except.error e
    | none => Except.ok rcp.length)

/-- Iteration core of `emitSyncSafe`: every callback of the snapshot runs
inside try/catch, so a thrown error is routed to `onError` (collected, in
invocation order, into the returned error list) and never stops the
iteration. -/
def runSyncSafe (cb : Nat → V → SubEventState D → SubEventState D × Option E)
    (v : V) :
    List (ISubscriber D) → SubEventState D →
      List (Nat × V) × List E × SubEventState D
  | [], s => ([], [], s)
  | x :: rest, s =>
    match cb x.id v s with
    | (s', e?) =>
      let t := runSyncSafe cb v rest s'
      ((x.id, v) :: t.1, e?.toList ++ t.2.1, t.2.2)

/-- `SubEvent.emitSyncSafe(data, onError)`: same snapshot as `emitSync`, but
each invocation is isolated - a synchronous throw is caught and passed to
`onError` - and the call always returns `r.length`.  Result: trace of
invocations, list of errors routed to `onError` (in order), returned count,
final state. -/
def emitSyncSafe (o : IEventOptions D)
    (cb : Nat → V → SubEventState D → SubEventState D × Option E) (v : V)
    (s : SubEventState D) :
    List (Nat × V) × List E × Nat × SubEventState D :=
  let rcp := _getRecipients o s
  let t := runSyncSafe cb v rcp s
  (t.1, t.2.1, rcp.length, t.2.2)

/-- `SubEvent.emit(data, onFinished)`: schedules one deferred thunk per
snapshot member (`_nextCall`) and returns `r.length` immediately.  The model
returns the returned count and the schedule: one entry `(id, fin)` per
scheduled thunk, where `fin` is true exactly when that thunk additionally
invokes `onFinished` (source: `index === r.length - 1` and `onFinished` is a
function).  An empty snapshot schedules nothing. -/
def emit (o : IEventOptions D) (hasOnFinished : Bool) (s : SubEventState D) :
    Nat × List (Nat × Bool) :=
  let rcp := _getRecipients o s
  (rcp.length,
    rcp.enum.map fun p => (p.2.id, hasOnFinished && (p.1 == rcp.length - 1)))

/-- `SubEvent.emitSafe(data, onError, onFinished)`: identical scheduling
shape to `emit` - per-thunk try/catch routes errors to `onError`, and the
`finally` block invokes `onFinished` inside the thunk at
`index === r.length - 1`.  The schedule observable is the same. -/
def emitSafe (o : IEventOptions D) (hasOnFinished : Bool)
    (s : SubEventState D) : Nat × List (Nat × Bool) :=
  let rcp := _getRecipients o s
  (rcp.length,
    rcp.enum.map fun p => (p.2.id, hasOnFinished && (p.1 == rcp.length - 1)))

end SubEvent

namespace Subscription

variable {D : Type}

/-- `get live()`: `!!this._cancel`. -/
def live (i : Nat) (s : SubEventState D) : Bool := ! s.cancelled.contains i

/-- `Subscription.cancel()`: when `_cancel` is still set, invokes the bound
thunk (which is `() => this._cancelSub(sub)`, created by
`SubEvent._createCancel`), nulls `_cancel`, and returns true; otherwise a
no-op returning false. -/
def cancel (o : IEventOptions D) (i : Nat) (s : SubEventState D) :
    Bool × SubEventState D :=
  if i ∈ s.cancelled then (false, s)
  else (true, SubEvent._cancelSub o i s)

end Subscription

/-- The registry-mutating operations a callback can perform on the
broadcaster through the public API: `subscribeOp` is a `subscribe` call,
`cancelOp i` a `cancel()` call on the Subscription of id `i` (such a handle
only exists when `i` has been issued, hence the `i < nextId` guard in
`applyOp`), `cancelAllOp` a `cancelAll()` call.  The emit variants mutate
the state only through their callbacks performing these same operations
(lemma `runSync_opCb` below makes that exact), so states reachable by any
mix of API calls and emissions are exactly the states reachable by lists of
these operations. -/
inductive Op where
  | subscribeOp
  | cancelOp (i : Nat)
  | cancelAllOp
deriving DecidableEq

/-- Applies one public API operation to the broadcaster state. -/
def applyOp {D : Type} (o : IEventOptions D) : Op → SubEventState D → SubEventState D
  | Op.subscribeOp, s => (SubEvent.subscribe o s).2
  | Op.cancelOp i, s => if i < s.nextId then (Subscription.cancel o i s).2 else s
  | Op.cancelAllOp, s => (SubEvent.cancelAll o s).2

/-- Applies a list of public API operations in order. -/
def applyOps {D : Type} (o : IEventOptions D) (l : List Op) (s : SubEventState D) :
    SubEventState D :=
  l.foldl (fun t op => applyOp o op t) s

/-- Callback semantics in which subscriber `i`'s callback performs the API
operation `act i` on its own broadcaster and never throws. -/
def opCb {D V : Type} (o : IEventOptions D) (act : Nat → Op) :
    Nat → V → SubEventState D → SubEventState D × Option Empty :=
  fun i _ s => (applyOp o (act i) s, none)

/-- Well-formedness of a broadcaster state, true of every state reachable
through the public API: registry ids are below the id counter, are distinct,
and are not cancelled; cancelled ids have been issued. -/
def WF {D : Type} (s : SubEventState D) : Prop :=
  (∀ x ∈ s.subs, x.id < s.nextId) ∧
  (s.subs.map fun x => x.id).Nodup ∧
  (∀ x ∈ s.subs, x.id ∉ s.cancelled) ∧
  (∀ i ∈ s.cancelled, i < s.nextId)

/-- `n` consecutive `subscribe` calls. -/
def subscribeN {D : Type} (o : IEventOptions D) :
    Nat → SubEventState D → SubEventState D
  | 0, s => s
  | n + 1, s => (SubEvent.subscribe o (subscribeN o n s)).2

end SubEvents

namespace SubEvents

open SubEvent Subscription

section SpliceLemmas

variable {D : Type}

/-- Unfolding of `spliceIndexOf` on a cons cell. -/
theorem spliceIndexOf_cons (x : ISubscriber D) (rest : List (ISubscriber D)) (i : Nat) :
    spliceIndexOf (x :: rest) i =
      if x.id = i then rest
      else
        match rest.findIdx? (fun y => y.id == i) with
        | some k => x :: rest.eraseIdx k
        | none => (x :: rest).dropLast := by
  unfold spliceIndexOf
  rw [List.findIdx?_cons]
  by_cases h : x.id = i
  · simp [h]
  · simp only [h, beq_iff_eq, if_neg h, List.findIdx?_succ]
    cases hf : rest.findIdx? (fun y => y.id == i) with
    | some k => simp [hf]
    | none => simp [hf]

/-- Everything left by `spliceIndexOf` was in the original list. -/
theorem spliceIndexOf_subset (l : List (ISubscriber D)) (i : Nat) :
    spliceIndexOf l i ⊆ l := by
  unfold spliceIndexOf
  cases hf : l.findIdx? (fun y => y.id == i) with
  | some k => exact l.eraseIdx_subset k
  | none => exact l.dropLast_subset

/-- When the id is present and registry ids are distinct, the splice in
`_cancelSub` removes exactly the record with that id. -/
theorem spliceIndexOf_eq_filter {l : List (ISubscriber D)} {i : Nat}
    (hd : (l.map fun x => x.id).Nodup) (hm : i ∈ l.map fun x => x.id) :
    spliceIndexOf l i = l.filter fun x => ! (x.id == i) := by
  induction l with
  | nil => simp at hm
  | cons x rest ih =>
    simp only [List.map_cons, List.nodup_cons] at hd
    rw [spliceIndexOf_cons]
    by_cases h : x.id = i
    · simp only [if_pos h]
      have hrest : ∀ y ∈ rest, (! (y.id == i)) = true := by
        intro y hy
        simp only [Bool.not_eq_true', beq_eq_false_iff_ne, ne_eq]
        intro hyi
        exact hd.1 (by rw [h, ← hyi]; exact List.mem_map_of_mem _ hy)
      rw [List.filter_cons]
      simp only [h, beq_self_eq_true, Bool.not_true, Bool.false_eq_true, if_neg
        (by simp : ¬ ((false : Bool) = true))]
      exact (List.filter_eq_self.mpr hrest).symm
    · have hm' : i ∈ rest.map fun x => x.id := by
        rcases List.mem_map.mp hm with ⟨y, hy, hyi⟩
        rcases List.mem_cons.mp hy with rfl | hy'
        · exact absurd hyi h
        · exact List.mem_map.mpr ⟨y, hy', hyi⟩
      have hsome : ∃ k, rest.findIdx? (fun y => y.id == i) = some k := by
        rcases List.mem_map.mp hm' with ⟨y, hy, hyi⟩
        have := List.findIdx?_eq_some_of_exists (p := fun y => y.id == i)
          ⟨y, hy, by simp [hyi]⟩
        exact Option.isSome_iff_exists.mp (by rw [this]; rfl) |>.imp fun _ h => h
      rcases hsome with ⟨k, hk⟩
      simp only [if_neg h, hk]
      have : rest.eraseIdx k = spliceIndexOf rest i := by
        unfold spliceIndexOf; rw [hk]
      rw [this, ih hd.2 hm', List.filter_cons]
      simp [h]

end SpliceLemmas

end SubEvents

namespace SubEvents

open SubEvent Subscription

section RunLemmas

variable {D V E : Type}

/-- When no callback of the list throws, the synchronous iteration invokes
exactly the listed subscribers, in order, each with the emitted value, and
produces no error. -/
theorem runSync_nothrow
    (cb : Nat → V → SubEventState D → SubEventState D × Option E) (v : V)
    (l : List (ISubscriber D)) :
    ∀ s : SubEventState D,
      (∀ x ∈ l, ∀ s', (cb x.id v s').2 = none) →
      (runSync cb v l s).1 = l.map (fun x => (x.id, v)) ∧
        (runSync cb v l s).2.2 = none := by
  induction l with
  | nil => intro s _; simp [runSync]
  | cons x rest ih =>
    intro s h
    rcases hcb : cb x.id v s with ⟨s', e?⟩
    have he : e? = none := by
      have hx := h x (List.mem_cons_self x rest) s
      rw [hcb] at hx
      exact hx
    subst he
    have ihr := ih s' fun y hy => h y (List.mem_cons_of_mem x hy)
    simp only [runSync, hcb, List.map_cons]
    exact ⟨by rw [ihr.1], ihr.2⟩

/-- When the callbacks before `x` do not throw and `x`'s callback always
throws `e`, the synchronous iteration invokes exactly the prefix up to and
including `x` and yields the error `e`. -/
theorem runSync_throw
    (cb : Nat → V → SubEventState D → SubEventState D × Option E) (v : V)
    (e : E) (x : ISubscriber D) (l₂ : List (ISubscriber D)) :
    ∀ (l₁ : List (ISubscriber D)) (s : SubEventState D),
      (∀ y ∈ l₁, ∀ s', (cb y.id v s').2 = none) →
      (∀ s', (cb x.id v s').2 = some e) →
      (runSync cb v (l₁ ++ x :: l₂) s).1 =
          (l₁ ++ [x]).map (fun y => (y.id, v)) ∧
        (runSync cb v (l₁ ++ x :: l₂) s).2.2 = some e := by
  intro l₁
  induction l₁ with
  | nil =>
    intro s _ h₂
    rcases hcb : cb x.id v s with ⟨s', e?⟩
    have he : e? = some e := by
      have hx := h₂ s
      rw [hcb] at hx
      exact hx
    subst he
    simp [runSync, hcb]
  | cons y rest ih =>
    intro s h₁ h₂
    rcases hcb : cb y.id v s with ⟨s', e?⟩
    have he : e? = none := by
      have hy := h₁ y (List.mem_cons_self y rest) s
      rw [hcb] at hy
      exact hy
    subst he
    have ihr := ih s' (fun z hz => h₁ z (List.mem_cons_of_mem y hz)) h₂
    simp only [List.cons_append, runSync, hcb, List.map_cons, List.append_eq]
    exact ⟨by rw [ihr.1], ihr.2⟩

/-- With callbacks that act on the broadcaster through the public API
(`opCb`), the state left by the synchronous iteration is the fold of the
corresponding API operations. -/
theorem runSync_opCb (o : IEventOptions D) (act : Nat → Op) (v : V) :
    ∀ (l : List (ISubscriber D)) (s : SubEventState D),
      (runSync (opCb (V := V) o act) v l s).2.1 =
        applyOps o (l.map fun x => act x.id) s := by
  intro l
  induction l with
  | nil => intro s; simp [runSync, applyOps]
  | cons x rest ih =>
    intro s
    simp only [runSync, opCb, List.map_cons, applyOps, List.foldl_cons]
    exact ih _

/-- The safe synchronous iteration invokes every listed subscriber, in
order, each with the emitted value, regardless of which callbacks throw. -/
theorem runSyncSafe_trace
    (cb : Nat → V → SubEventState D → SubEventState D × Option E) (v : V) :
    ∀ (l : List (ISubscriber D)) (s : SubEventState D),
      (runSyncSafe cb v l s).1 = l.map fun x => (x.id, v) := by
  intro l
  induction l with
  | nil => intro s; simp [runSyncSafe]
  | cons x rest ih =>
    intro s
    rcases hcb : cb x.id v s with ⟨s', e?⟩
    simp only [runSyncSafe, hcb, List.map_cons]
    rw [ih]

/-- When no listed callback throws, the safe synchronous iteration routes no
error to onError. -/
theorem runSyncSafe_errs_nothrow
    (cb : Nat → V → SubEventState D → SubEventState D × Option E) (v : V) :
    ∀ (l : List (ISubscriber D)) (s : SubEventState D),
      (∀ y ∈ l, ∀ s', (cb y.id v s').2 = none) →
      (runSyncSafe cb v l s).2.1 = [] := by
  intro l
  induction l with
  | nil => intro s _; simp [runSyncSafe]
  | cons x rest ih =>
    intro s h
    rcases hcb : cb x.id v s with ⟨s', e?⟩
    have he : e? = none := by
      have hx := h x (List.mem_cons_self x rest) s
      rw [hcb] at hx
      exact hx
    subst he
    simp only [runSyncSafe, hcb, Option.toList_none, List.nil_append]
    exact ih s' fun y hy => h y (List.mem_cons_of_mem x hy)

/-- When exactly the callback of `x` throws (always `e`) and every other
listed callback never throws, the safe synchronous iteration routes exactly
the one error `e` to onError. -/
theorem runSyncSafe_errs_single
    (cb : Nat → V → SubEventState D → SubEventState D × Option E) (v : V)
    (e : E) (x : ISubscriber D) (l₂ : List (ISubscriber D)) :
    ∀ (l₁ : List (ISubscriber D)) (s : SubEventState D),
      (∀ y ∈ l₁ ++ l₂, ∀ s', (cb y.id v s').2 = none) →
      (∀ s', (cb x.id v s').2 = some e) →
      (runSyncSafe cb v (l₁ ++ x :: l₂) s).2.1 = [e] := by
  intro l₁
  induction l₁ with
  | nil =>
    intro s h₁ h₂
    rcases hcb : cb x.id v s with ⟨s', e?⟩
    have he : e? = some e := by
      have hx := h₂ s
      rw [hcb] at hx
      exact hx
    subst he
    simp only [List.nil_append, runSyncSafe, hcb, Option.toList_some]
    rw [runSyncSafe_errs_nothrow cb v l₂ s' fun y hy => h₁ y hy,
      List.append_nil]
  | cons y rest ih =>
    intro s h₁ h₂
    rcases hcb : cb y.id v s with ⟨s', e?⟩
    have he : e? = none := by
      have hy := h₁ y (List.mem_cons_self y (rest ++ l₂)) s
      rw [hcb] at hy
      exact hy
    subst he
    simp only [List.cons_append, runSyncSafe, hcb, Option.toList_none,
      List.nil_append]
    exact ih s' (fun z hz => h₁ z (List.mem_cons_of_mem y hz)) h₂

end RunLemmas

end SubEvents

namespace SubEvents

open SubEvent Subscription

section OpLemmas

variable {D : Type}

/-- The splice of `_cancelSub` leaves a sublist of the registry. -/
theorem spliceIndexOf_sublist (l : List (ISubscriber D)) (i : Nat) :
    (spliceIndexOf l i).Sublist l := by
  unfold spliceIndexOf
  cases hf : l.findIdx? (fun y => y.id == i) with
  | some k => exact l.eraseIdx_sublist k
  | none => exact l.dropLast_sublist

/-- After the splice of `_cancelSub`, the id is gone from the registry
(given distinct registry ids). -/
theorem spliceIndexOf_not_mem {l : List (ISubscriber D)} {i : Nat}
    (hd : (l.map fun x => x.id).Nodup) :
    i ∉ (spliceIndexOf l i).map fun x => x.id := by
  by_cases hm : i ∈ l.map fun x => x.id
  · rw [spliceIndexOf_eq_filter hd hm]
    intro hmem
    rcases List.mem_map.mp hmem with ⟨y, hy, hyi⟩
    have := List.of_mem_filter hy
    simp only [hyi, beq_self_eq_true, Bool.not_true] at this
    cases this
  · intro hmem
    rcases List.mem_map.mp hmem with ⟨y, hy, hyi⟩
    exact hm (List.mem_map.mpr ⟨y, spliceIndexOf_subset l i hy, hyi⟩)

/-- No public operation decreases the id counter. -/
theorem applyOp_nextId_mono (o : IEventOptions D) (op : Op)
    (s : SubEventState D) : s.nextId ≤ (applyOp o op s).nextId := by
  cases op with
  | subscribeOp => exact Nat.le_succ _
  | cancelOp i =>
    by_cases h : i < s.nextId
    · simp only [applyOp, if_pos h, Subscription.cancel]
      by_cases hc : i ∈ s.cancelled
      · simp [hc]
      · simp [hc, SubEvent._cancelSub]
    · simp [applyOp, if_neg h]
  | cancelAllOp => exact Nat.le_refl _

/-- A nulled Subscription `_cancel` stays null: no public operation removes
an id from the cancelled set. -/
theorem applyOp_cancelled_mono (o : IEventOptions D) (op : Op)
    (s : SubEventState D) {i : Nat} (h : i ∈ s.cancelled) :
    i ∈ (applyOp o op s).cancelled := by
  cases op with
  | subscribeOp => exact h
  | cancelOp j =>
    by_cases hj : j < s.nextId
    · simp only [applyOp, if_pos hj, Subscription.cancel]
      by_cases hc : j ∈ s.cancelled
      · simpa [hc] using h
      · simp only [hc, if_neg, SubEvent._cancelSub]
        exact List.mem_append_left _ h
    · simpa [applyOp, if_neg hj] using h
  | cancelAllOp => exact List.mem_append_left _ h

/-- An issued id that is out of the registry never comes back: `subscribe`
only ever adds the fresh id `nextId`. -/
theorem applyOp_gone (o : IEventOptions D) (op : Op) (s : SubEventState D)
    {i : Nat} (hlt : i < s.nextId) (hout : i ∉ s.subs.map fun x => x.id) :
    i < (applyOp o op s).nextId ∧
      i ∉ (applyOp o op s).subs.map fun x => x.id := by
  refine ⟨Nat.lt_of_lt_of_le hlt (applyOp_nextId_mono o op s), ?_⟩
  cases op with
  | subscribeOp =>
    simp only [applyOp, SubEvent.subscribe, List.map_append, List.map_cons,
      List.map_nil, List.mem_append, List.mem_cons]
    rintro (h | h | h)
    · exact hout h
    · exact absurd h.symm (Nat.ne_of_lt hlt).symm
    · cases h
  | cancelOp j =>
    by_cases hj : j < s.nextId
    · simp only [applyOp, if_pos hj, Subscription.cancel]
      by_cases hc : j ∈ s.cancelled
      · simpa [hc] using hout
      · simp only [hc, if_neg, SubEvent._cancelSub]
        intro hmem
        rcases List.mem_map.mp hmem with ⟨y, hy, hyi⟩
        exact hout (List.mem_map.mpr ⟨y, spliceIndexOf_subset s.subs j hy, hyi⟩)
    · simpa [applyOp, if_neg hj] using hout
  | cancelAllOp => simp [applyOp, SubEvent.cancelAll]

/-- Fold form of `applyOps` on a cons cell. -/
theorem applyOps_cons (o : IEventOptions D) (op : Op) (l : List Op)
    (s : SubEventState D) :
    applyOps o (op :: l) s = applyOps o l (applyOp o op s) := rfl

/-- Fold form of `applyOps` on an append. -/
theorem applyOps_append (o : IEventOptions D) (l₁ l₂ : List Op)
    (s : SubEventState D) :
    applyOps o (l₁ ++ l₂) s = applyOps o l₂ (applyOps o l₁ s) := by
  unfold applyOps
  exact List.foldl_append _ _ _ _

/-- `applyOp_cancelled_mono`, over a whole list of operations. -/
theorem applyOps_cancelled_mono (o : IEventOptions D) (l : List Op) :
    ∀ (s : SubEventState D) {i : Nat}, i ∈ s.cancelled →
      i ∈ (applyOps o l s).cancelled := by
  induction l with
  | nil => intro s i h; exact h
  | cons op rest ih =>
    intro s i h
    rw [applyOps_cons]
    exact ih _ (applyOp_cancelled_mono o op s h)

/-- `applyOp_gone`, over a whole list of operations. -/
theorem applyOps_gone (o : IEventOptions D) (l : List Op) :
    ∀ (s : SubEventState D) {i : Nat}, i < s.nextId →
      i ∉ (s.subs.map fun x => x.id) →
      i < (applyOps o l s).nextId ∧
        i ∉ (applyOps o l s).subs.map fun x => x.id := by
  induction l with
  | nil => intro s i h1 h2; exact ⟨h1, h2⟩
  | cons op rest ih =>
    intro s i h1 h2
    rw [applyOps_cons]
    have h := applyOp_gone o op s h1 h2
    exact ih _ h.1 h.2

end OpLemmas

end SubEvents

namespace SubEvents

open SubEvent Subscription

section InvariantLemmas

variable {D V : Type}

/-- The initial state is well-formed. -/
theorem WF_initialState : WF (initialState D) := by
  refine ⟨?_, ?_, ?_, ?_⟩ <;> simp [initialState, WF]

/-- Every public operation preserves well-formedness. -/
theorem WF_applyOp (o : IEventOptions D) (op : Op) (s : SubEventState D)
    (h : WF s) : WF (applyOp o op s) := by
  obtain ⟨h1, h2, h3, h4⟩ := h
  cases op with
  | subscribeOp =>
    refine ⟨?_, ?_, ?_, ?_⟩
    · simp only [applyOp, SubEvent.subscribe, List.mem_append,
        List.mem_singleton]
      rintro x (hx | rfl)
      · exact Nat.lt_succ_of_lt (h1 x hx)
      · exact Nat.lt_succ_self _
    · simp only [applyOp, SubEvent.subscribe, List.map_append, List.map_cons,
        List.map_nil]
      rw [List.nodup_append]
      refine ⟨h2, List.nodup_singleton _, ?_⟩
      intro a ha hb
      simp only [List.mem_singleton] at hb
      subst hb
      rcases List.mem_map.mp ha with ⟨y, hy, hyi⟩
      exact absurd hyi (Nat.ne_of_lt (h1 y hy))
    · simp only [applyOp, SubEvent.subscribe, List.mem_append,
        List.mem_singleton]
      rintro x (hx | rfl)
      · exact h3 x hx
      · intro hc
        exact absurd rfl (Nat.ne_of_lt (h4 _ hc))
    · simp only [applyOp, SubEvent.subscribe]
      intro i hi
      exact Nat.lt_succ_of_lt (h4 i hi)
  | cancelOp j =>
    by_cases hj : j < s.nextId
    · simp only [applyOp, if_pos hj, Subscription.cancel]
      by_cases hc : j ∈ s.cancelled
      · simp only [if_pos hc]
        exact ⟨h1, h2, h3, h4⟩
      · simp only [if_neg hc, SubEvent._cancelSub]
        refine ⟨?_, ?_, ?_, ?_⟩
        · intro x hx
          exact h1 x (spliceIndexOf_subset s.subs j hx)
        · exact h2.sublist ((spliceIndexOf_sublist s.subs j).map _)
        · intro x hx
          simp only [List.mem_append, List.mem_singleton]
          rintro (hm | rfl)
          · exact h3 x (spliceIndexOf_subset s.subs j hx) hm
          · exact spliceIndexOf_not_mem h2 (List.mem_map.mpr ⟨x, hx, rfl⟩)
        · intro i hi
          rcases List.mem_append.mp hi with hi | hi
          · exact h4 i hi
          · rw [List.mem_singleton.mp hi]
            exact hj
    · simpa [applyOp, if_neg hj] using ⟨h1, h2, h3, h4⟩
  | cancelAllOp =>
    refine ⟨?_, ?_, ?_, ?_⟩
    · simp [applyOp, SubEvent.cancelAll]
    · simp [applyOp, SubEvent.cancelAll]
    · simp [applyOp, SubEvent.cancelAll]
    · simp only [applyOp, SubEvent.cancelAll]
      intro i hi
      rcases List.mem_append.mp hi with hi | hi
      · exact h4 i hi
      · rcases List.mem_map.mp hi with ⟨y, hy, hyi⟩
        rw [← hyi]
        exact h1 y hy

/-- `WF_applyOp`, over a whole list of operations. -/
theorem WF_applyOps (o : IEventOptions D) (l : List Op) :
    ∀ s : SubEventState D, WF s → WF (applyOps o l s) := by
  induction l with
  | nil => intro s h; exact h
  | cons op rest ih =>
    intro s h
    rw [applyOps_cons]
    exact ih _ (WF_applyOp o op s h)

/-- With `max = 0` (no limit) the emission snapshot is the whole registry. -/
theorem _getRecipients_max_zero (o : IEventOptions D) (s : SubEventState D)
    (h : o.max = 0) : _getRecipients o s = s.subs := by
  simp [SubEvent._getRecipients, h]

/-- With `max = K > 0` the emission snapshot is the first `K` registry
records in insertion order. -/
theorem _getRecipients_max_pos (o : IEventOptions D) (s : SubEventState D)
    (h : 0 < o.max) : _getRecipients o s = s.subs.take o.max := by
  simp [SubEvent._getRecipients, h]

/-- The emission snapshot only contains current registry records. -/
theorem _getRecipients_subset (o : IEventOptions D) (s : SubEventState D) :
    _getRecipients o s ⊆ s.subs := by
  unfold SubEvent._getRecipients
  exact List.take_subset _ _

/-- After `n` subscribe calls on a fresh broadcaster, the registry ids are
`0, 1, ..., n-1` in insertion order, the id counter is `n`, and no
Subscription is cancelled. -/
theorem subscribeN_initialState (o : IEventOptions D) (n : Nat) :
    (subscribeN o n (initialState D)).subs.map (fun x => x.id) = List.range n ∧
      (subscribeN o n (initialState D)).nextId = n ∧
      (subscribeN o n (initialState D)).cancelled = [] := by
  induction n with
  | zero => exact ⟨rfl, rfl, rfl⟩
  | succ n ih =>
    obtain ⟨ih1, ih2, ih3⟩ := ih
    simp only [subscribeN, SubEvent.subscribe]
    refine ⟨?_, ?_, ?_⟩
    · simp only [List.map_append, List.map_cons, List.map_nil, ih1, ih2,
        List.range_succ]
    · simp [ih2]
    · simp [ih3]

end InvariantLemmas

end SubEvents

namespace SubEvents

/-- State of a SubEventCount (src/unnamed/part_004): the base SubEvent state
plus the sequence of count-change events published through the nested
`onCount` event.  Each entry is the `(prevCount, newCount)` pair of one
`ISubCountChange` value passed to `this._notify` - which is bound to
`onCount.emitSync` in sync mode and `onCount.emit` otherwise; the published
value sequence is the same either way. -/
structure SubEventCountState (D : Type) where
  ev : SubEventState D
  countLog : List (Nat × Nat)
deriving DecidableEq

namespace SubEventCount

variable {D : Type}

/-- A freshly constructed SubEventCount. -/
def initial (D : Type) : SubEventCountState D := ⟨initialState D, []⟩

/-- `subscribe` on a SubEventCount: the base `subscribe` pushes the record,
and the overridden `_createCancel` body publishes
`{newCount: s.length, prevCount: s.length - 1}` (length read after the
push) before the Subscription is returned. -/
def subscribe (o : IEventOptions D) (s : SubEventCountState D) :
    Nat × SubEventCountState D :=
  let r := SubEvent.subscribe o s.ev
  (r.1, ⟨r.2, s.countLog ++ [(r.2.subs.length - 1, r.2.subs.length)]⟩)

/-- `Subscription.cancel` on a subscription issued by a SubEventCount: the
bound thunk is the override's `() => { this._cancelSub(sub);
this._notify({newCount: s.length, prevCount: s.length + 1}); }`, so a
successful cancel publishes one event with the length read after removal;
cancel of an already-cancelled Subscription stays a no-op. -/
def cancel (o : IEventOptions D) (i : Nat) (s : SubEventCountState D) :
    Bool × SubEventCountState D :=
  if i ∈ s.ev.cancelled then (false, s)
  else
    let e := SubEvent._cancelSub o i s.ev
    (true, ⟨e, s.countLog ++ [(e.subs.length + 1, e.subs.length)]⟩)

/-- `SubEventCount.cancelAll`: reads the pre-call count; when nonzero,
performs the base `cancelAll` and publishes exactly one event
`{newCount: 0, prevCount}`; always returns the pre-call count. -/
def cancelAll (o : IEventOptions D) (s : SubEventCountState D) :
    Nat × SubEventCountState D :=
  let prevCount := SubEvent.count s.ev
  if prevCount ≠ 0 then
    (prevCount, ⟨(SubEvent.cancelAll o s.ev).2, s.countLog ++ [(prevCount, 0)]⟩)
  else (prevCount, s)

end SubEventCount

/-- Shapes of values returned by the EventConsumer operations, per the
signatures in src/unnamed/part_003.  The shape `event` (a reference to a
SubEvent/broadcaster) is included so that its absence from the actual
surface can be stated. -/
inductive ConsumerResultKind where
  | num
  | subscription
  | promiseT
  | stat
  | event
deriving DecidableEq

namespace EventConsumer

variable {D : Type}

/-- The names of all public members of the non-extendable EventConsumer
class (src/unnamed/part_003): two getters and four methods, each a plain
forward into the contained event via the private WeakMap. -/
def publicOps : List String :=
  ["count", "maxSubs", "subscribe", "once", "toPromise", "getStat"]

/-- Return shape of each EventConsumer member, read off the source
signatures: `count`/`maxSubs` return a number, `subscribe`/`once` a
Subscription, `toPromise` a `Promise<T>`, `getStat` an `ISubStat`. -/
def resultKind : String → Option ConsumerResultKind := fun n =>
  if n = "count" then some ConsumerResultKind.num
  else if n = "maxSubs" then some ConsumerResultKind.num
  else if n = "subscribe" then some ConsumerResultKind.subscription
  else if n = "once" then some ConsumerResultKind.subscription
  else if n = "toPromise" then some ConsumerResultKind.promiseT
  else if n = "getStat" then some ConsumerResultKind.stat
  else none

/-- `get count()` of EventConsumer: `consume(this).count` - forwards into
the wrapped event. -/
def count (wrapped : SubEventState D) : Nat := SubEvent.count wrapped

/-- `subscribe` of EventConsumer: `consume(this).subscribe(cb, options)` -
forwards into the wrapped event, which registers the callback and issues
the Subscription. -/
def subscribe (o : IEventOptions D) (wrapped : SubEventState D) :
    Nat × SubEventState D :=
  SubEvent.subscribe o wrapped

end EventConsumer

end SubEvents

namespace SubEvents

open SubEvent Subscription

section ClaimC1

variable {D V E : Type}

/-- A prefix of `range`. -/
theorem take_range_of_le {j n : Nat} (h : j ≤ n) :
    (List.range n).take j = List.range j := by
  rcases Nat.exists_eq_add_of_le h with ⟨k, rfl⟩
  rw [List.range_add, List.take_left' (by simp)]

/-- Pairing each subscriber id with the emitted value commutes with reading
the id list off the registry. -/
theorem map_pair_of_map_id {l : List (ISubscriber D)} {ids : List Nat}
    (v : V) (h : l.map (fun x => x.id) = ids) :
    l.map (fun x => (x.id, v)) = ids.map fun i => (i, v) := by
  rw [← h, List.map_map]
  rfl

/-- Claim C1: on a broadcaster with `max = 0`, after `n` subscribe calls one
`emitSync(value)` invokes each of the `n` registered callbacks synchronously
exactly once with the value, in registration order, and returns `n`; and if
the callback registered at position `j` throws `e` (the ones before it not
throwing), then exactly the callbacks up to and including position `j` are
invoked, the ones after it in the snapshot are not, and the exception
propagates to the `emitSync` caller. -/
theorem claim_C1_emitSync_order_and_throw (o : IEventOptions D)
    (hmax : o.max = 0) (n : Nat)
    (cb : Nat → V → SubEventState D → SubEventState D × Option E) (v : V) :
    ((∀ i, i < n → ∀ v' s', (cb i v' s').2 = none) →
        (emitSync o cb v (subscribeN o n (initialState D))).1 =
            (List.range n).map (fun i => (i, v)) ∧
          (emitSync o cb v (subscribeN o n (initialState D))).2.2 =
            Except.ok n) ∧
      (∀ j e, j < n → (∀ i, i < j → ∀ v' s', (cb i v' s').2 = none) →
        (∀ v' s', (cb j v' s').2 = some e) →
        (emitSync o cb v (subscribeN o n (initialState D))).1 =
            (List.range (j + 1)).map (fun i => (i, v)) ∧
          (emitSync o cb v (subscribeN o n (initialState D))).2.2 =
            Except.error e) := by
  obtain ⟨hids, hnext, hcanc⟩ := subscribeN_initialState o n
  set s₁ := subscribeN o n (initialState D) with hs₁
  have hrcp : _getRecipients o s₁ = s₁.subs := _getRecipients_max_zero o s₁ hmax
  have hlen : s₁.subs.length = n := by
    have := congrArg List.length hids
    simpa using this
  constructor
  · intro h
    have hna : ∀ x ∈ s₁.subs, ∀ s', (cb x.id v s').2 = none := by
      intro x hx s'
      have hxid : x.id ∈ List.range n := by
        rw [← hids]
        exact List.mem_map_of_mem _ hx
      exact h x.id (List.mem_range.mp hxid) v s'
    have hr := runSync_nothrow cb v s₁.subs s₁ hna
    constructor
    · simp only [emitSync, hrcp]
      rw [hr.1, map_pair_of_map_id v hids]
    · simp only [emitSync, hrcp, hr.2, hlen]
  · intro j e hj hbelow hthrow
    have hjlen : j < s₁.subs.length := by rw [hlen]; exact hj
    have hsplit : s₁.subs =
        s₁.subs.take j ++ s₁.subs.get ⟨j, hjlen⟩ :: s₁.subs.drop (j + 1) := by
      conv_lhs => rw [← List.take_append_drop j s₁.subs]
      rw [List.drop_eq_getElem_cons hjlen, List.get_eq_getElem]
    have hxid : (s₁.subs.get ⟨j, hjlen⟩).id = j := by
      have hj' : j < (s₁.subs.map fun x => x.id).length := by
        rw [List.length_map]
        exact hjlen
      have h1 : (s₁.subs.map fun x => x.id).get ⟨j, hj'⟩ = j := by
        simp [hids]
      simpa [List.get_eq_getElem, List.getElem_map] using h1
    have hb : ∀ y ∈ s₁.subs.take j, ∀ s', (cb y.id v s').2 = none := by
      intro y hy s'
      have : y.id ∈ (s₁.subs.take j).map fun x => x.id :=
        List.mem_map_of_mem _ hy
      rw [List.map_take, hids, take_range_of_le hj.le] at this
      exact hbelow y.id (List.mem_range.mp this) v s'
    have ht : ∀ s', (cb (s₁.subs.get ⟨j, hjlen⟩).id v s').2 = some e := by
      intro s'
      rw [hxid]
      exact hthrow v s'
    have hr := runSync_throw cb v e (s₁.subs.get ⟨j, hjlen⟩)
      (s₁.subs.drop (j + 1)) (s₁.subs.take j) s₁ hb ht
    have hids2 : ((s₁.subs.take j ++ [s₁.subs.get ⟨j, hjlen⟩]).map
        fun x => x.id) = List.range (j + 1) := by
      rw [List.map_append, List.map_take, hids, take_range_of_le hj.le,
        List.range_succ, List.map_cons, List.map_nil, hxid]
    constructor
    · simp only [emitSync, hrcp]
      rw [hsplit, hr.1, map_pair_of_map_id v hids2]
    · simp only [emitSync, hrcp]
      rw [hsplit, hr.2]

end ClaimC1

end SubEvents

namespace SubEvents

open SubEvent Subscription

/-- Witness for claim C1 at a concrete run: three subscribers on an
unlimited broadcaster; with no callback throwing, `emitSync 5` invokes ids
0, 1, 2 in order and returns 3; with the callback of id 1 always throwing
7, only ids 0 and 1 are invoked and the error propagates. -/
theorem claim_C1_emitSync_order_and_throw_witness :
    ((SubEvent.emitSync (E := Nat) (⟨0, none, false⟩ : IEventOptions Nat)
          (fun _ _ s => (s, none)) (5 : Nat)
          (subscribeN ⟨0, none, false⟩ 3 (initialState Nat))).1 =
        (List.range 3).map (fun i => (i, 5)) ∧
      (SubEvent.emitSync (E := Nat) (⟨0, none, false⟩ : IEventOptions Nat)
          (fun _ _ s => (s, none)) (5 : Nat)
          (subscribeN ⟨0, none, false⟩ 3 (initialState Nat))).2.2 =
        Except.ok 3) ∧
    ((SubEvent.emitSync (⟨0, none, false⟩ : IEventOptions Nat)
          (fun i _ s => (s, if i = 1 then some 7 else none)) (5 : Nat)
          (subscribeN ⟨0, none, false⟩ 3 (initialState Nat))).1 =
        (List.range 2).map (fun i => (i, 5)) ∧
      (SubEvent.emitSync (⟨0, none, false⟩ : IEventOptions Nat)
          (fun i _ s => (s, if i = 1 then some 7 else none)) (5 : Nat)
          (subscribeN ⟨0, none, false⟩ 3 (initialState Nat))).2.2 =
        Except.error 7) := by
  constructor
  · exact (claim_C1_emitSync_order_and_throw
      (⟨0, none, false⟩ : IEventOptions Nat) rfl 3
      (fun _ _ s => (s, none)) 5).1 (fun _ _ _ _ => rfl)
  · exact (claim_C1_emitSync_order_and_throw
      (⟨0, none, false⟩ : IEventOptions Nat) rfl 3
      (fun i _ s => (s, if i = 1 then some 7 else none)) 5).2 1 7
      (by decide)
      (fun i hi v' s' => by
        have h0 : i = 0 := Nat.lt_one_iff.mp hi
        subst h0
        rfl)
      (fun v' s' => rfl)

end SubEvents

namespace SubEvents

open SubEvent Subscription

section ClaimC2

variable {D V E : Type}

/-- `applyOp_nextId_mono`, over a whole list of operations. -/
theorem applyOps_nextId_mono (o : IEventOptions D) (l : List Op) :
    ∀ s : SubEventState D, s.nextId ≤ (applyOps o l s).nextId := by
  induction l with
  | nil => intro s; exact Nat.le_refl _
  | cons op rest ih =>
    intro s
    rw [applyOps_cons]
    exact Nat.le_trans (applyOp_nextId_mono o op s) (ih _)

/-- Cancelling the Subscription of an issued id leaves a well-formed
registry without that id (whether or not it was still live). -/
theorem cancelOp_removes (o : IEventOptions D) (s : SubEventState D)
    (hWF : WF s) {i : Nat} (hi : i < s.nextId) :
    i < (applyOp o (Op.cancelOp i) s).nextId ∧
      i ∉ (applyOp o (Op.cancelOp i) s).subs.map fun x => x.id := by
  refine ⟨Nat.lt_of_lt_of_le hi (applyOp_nextId_mono o _ s), ?_⟩
  simp only [applyOp, if_pos hi, Subscription.cancel]
  by_cases hc : i ∈ s.cancelled
  · simp only [if_pos hc]
    intro hm
    rcases List.mem_map.mp hm with ⟨y, hy, hyi⟩
    exact hWF.2.2.1 y hy (hyi ▸ hc)
  · simp only [if_neg hc, SubEvent._cancelSub]
    exact spliceIndexOf_not_mem hWF.2.1

/-- An id absent from the registry is absent from the emission snapshot. -/
theorem not_mem_getRecipients_map (o : IEventOptions D) (s : SubEventState D)
    {i : Nat} (h : i ∉ s.subs.map fun x => x.id) :
    i ∉ (_getRecipients o s).map fun x => x.id := by
  intro hm
  rcases List.mem_map.mp hm with ⟨y, hy, hyi⟩
  exact h (List.mem_map.mpr ⟨y, _getRecipients_subset o s hy, hyi⟩)

/-- Claim C2: snapshot isolation of `emitSync`.  (a) With no callback
throwing, the subscribers invoked by one `emitSync` call are exactly the
recipient snapshot computed at entry, in snapshot order, regardless of how
the callbacks mutate the state.  (b) In particular an id at or above the
entry id counter - such as any subscriber added by a callback during the
emission - receives nothing from it.  (c) If the callbacks act through the
public API and subscriber `i` cancels itself inside its own callback, the
trace still equals the full entry snapshot (delivery to the rest of the
snapshot is undisturbed), and `i` is absent from the emission snapshot of
every state reachable afterwards by further API operations - so it appears
in no later emission. -/
theorem claim_C2_snapshot_isolation (o : IEventOptions D)
    (s : SubEventState D) :
    (∀ (cb : Nat → V → SubEventState D → SubEventState D × Option E) (v : V),
        (∀ i v' s', (cb i v' s').2 = none) →
        (emitSync o cb v s).1 = (_getRecipients o s).map fun x => (x.id, v)) ∧
      (∀ (cb : Nat → V → SubEventState D → SubEventState D × Option E) (v : V),
        (∀ i v' s', (cb i v' s').2 = none) →
        (∀ x ∈ s.subs, x.id < s.nextId) →
        ∀ jid, s.nextId ≤ jid → (jid, v) ∉ (emitSync o cb v s).1) ∧
      (∀ (act : Nat → Op) (v : V) (i : Nat), WF s →
        i ∈ (_getRecipients o s).map (fun x => x.id) →
        act i = Op.cancelOp i →
        (emitSync o (opCb (V := V) o act) v s).1 =
            ((_getRecipients o s).map fun x => (x.id, v)) ∧
          ∀ ops : List Op,
            i ∉ (_getRecipients o (applyOps o ops
                (emitSync o (opCb (V := V) o act) v s).2.1)).map
              fun x => x.id) := by
  refine ⟨?_, ?_, ?_⟩
  · intro cb v h
    have hr := runSync_nothrow cb v (_getRecipients o s) s
      (fun x _ s' => h x.id v s')
    simp only [emitSync]
    exact hr.1
  · intro cb v h hbound jid hjid hmem
    simp only [emitSync] at hmem
    have hr := runSync_nothrow cb v (_getRecipients o s) s
      (fun x _ s' => h x.id v s')
    rw [hr.1] at hmem
    rcases List.mem_map.mp hmem with ⟨y, hy, hyeq⟩
    have hid : y.id = jid := congrArg Prod.fst hyeq
    have hy' : y ∈ s.subs := _getRecipients_subset o s hy
    have := hbound y hy'
    omega
  · intro act v i hWF hmem hact
    have htrace := runSync_nothrow (opCb (V := V) o act) v
      (_getRecipients o s) s (fun x _ s' => rfl)
    refine ⟨by simp only [emitSync]; exact htrace.1, ?_⟩
    intro ops
    have hstate : (emitSync o (opCb (V := V) o act) v s).2.1 =
        applyOps o ((_getRecipients o s).map fun x => act x.id) s := by
      simp only [emitSync]
      exact runSync_opCb o act v _ s
    rcases List.mem_map.mp hmem with ⟨x, hx, hxid⟩
    rcases List.append_of_mem hx with ⟨l₁, l₂, hsplit⟩
    have hi0 : i < s.nextId := by
      have := hWF.1 x (_getRecipients_subset o s hx)
      rwa [hxid] at this
    have hmap : (_getRecipients o s).map (fun y => act y.id) =
        l₁.map (fun y => act y.id) ++
          Op.cancelOp i :: l₂.map (fun y => act y.id) := by
      rw [hsplit, List.map_append, List.map_cons, hxid, hact]
    have hWFmid : WF (applyOps o (l₁.map fun y => act y.id) s) :=
      WF_applyOps o _ s hWF
    have hiMid : i < (applyOps o (l₁.map fun y => act y.id) s).nextId :=
      Nat.lt_of_lt_of_le hi0 (applyOps_nextId_mono o _ s)
    have hc := cancelOp_removes o _ hWFmid hiMid
    have hgone := applyOps_gone o (l₂.map fun y => act y.id) _ hc.1 hc.2
    have hfin : (emitSync o (opCb (V := V) o act) v s).2.1 =
        applyOps o (l₂.map fun y => act y.id)
          (applyOp o (Op.cancelOp i)
            (applyOps o (l₁.map fun y => act y.id) s)) := by
      rw [hstate, hmap, applyOps_append, applyOps_cons]
    rw [hfin]
    have hfinal := applyOps_gone o ops _ hgone.1 hgone.2
    exact not_mem_getRecipients_map o _ hfinal.2

end ClaimC2

end SubEvents

namespace SubEvents

open SubEvent Subscription

/-- Witness for claim C2 at a concrete run: two subscribers (ids 0, 1);
with pure callbacks the trace equals the entry snapshot; id 5 (not yet
issued at entry) receives nothing; with every callback cancelling its own
subscription, subscriber 0 still sees the full snapshot delivered and stays
out of the snapshot after a further subscribe. -/
theorem claim_C2_snapshot_isolation_witness :
    ((SubEvent.emitSync (E := Nat) (⟨0, none, false⟩ : IEventOptions Nat)
          (fun _ _ t => (t, none)) (9 : Nat)
          (subscribeN ⟨0, none, false⟩ 2 (initialState Nat))).1 =
        (SubEvent._getRecipients ⟨0, none, false⟩
            (subscribeN ⟨0, none, false⟩ 2 (initialState Nat))).map
          fun x => (x.id, 9)) ∧
    ((5, 9) ∉ (SubEvent.emitSync (E := Nat)
          (⟨0, none, false⟩ : IEventOptions Nat)
          (fun _ _ t => (t, none)) (9 : Nat)
          (subscribeN ⟨0, none, false⟩ 2 (initialState Nat))).1) ∧
    ((SubEvent.emitSync (⟨0, none, false⟩ : IEventOptions Nat)
          (opCb (V := Nat) ⟨0, none, false⟩ (fun k => Op.cancelOp k)) (9 : Nat)
          (subscribeN ⟨0, none, false⟩ 2 (initialState Nat))).1 =
        ((SubEvent._getRecipients ⟨0, none, false⟩
            (subscribeN ⟨0, none, false⟩ 2 (initialState Nat))).map
          fun x => (x.id, 9)) ∧
      0 ∉ (SubEvent._getRecipients ⟨0, none, false⟩
          (applyOps ⟨0, none, false⟩ [Op.subscribeOp]
            (SubEvent.emitSync (⟨0, none, false⟩ : IEventOptions Nat)
                (opCb (V := Nat) ⟨0, none, false⟩ (fun k => Op.cancelOp k))
                (9 : Nat)
                (subscribeN ⟨0, none, false⟩ 2 (initialState Nat))).2.1)).map
        fun x => x.id) := by
  refine ⟨?_, ?_, ?_, ?_⟩
  · exact (claim_C2_snapshot_isolation (⟨0, none, false⟩ : IEventOptions Nat)
      (subscribeN ⟨0, none, false⟩ 2 (initialState Nat))).1
      (fun _ _ t => (t, none)) 9 (fun _ _ _ => rfl)
  · exact (claim_C2_snapshot_isolation (⟨0, none, false⟩ : IEventOptions Nat)
      (subscribeN ⟨0, none, false⟩ 2 (initialState Nat))).2.1
      (fun _ _ t => (t, none)) 9 (fun _ _ _ => rfl) (by decide) 5 (by decide)
  · exact ((claim_C2_snapshot_isolation (E := Nat)
      (⟨0, none, false⟩ : IEventOptions Nat)
      (subscribeN ⟨0, none, false⟩ 2 (initialState Nat))).2.2
      (fun k => Op.cancelOp k) 9 0 (by unfold WF; decide) (by decide) rfl).1
  · exact ((claim_C2_snapshot_isolation (E := Nat)
      (⟨0, none, false⟩ : IEventOptions Nat)
      (subscribeN ⟨0, none, false⟩ 2 (initialState Nat))).2.2
      (fun k => Op.cancelOp k) 9 0 (by unfold WF; decide) (by decide) rfl).2
      [Op.subscribeOp]

end SubEvents

namespace SubEvents

open SubEvent Subscription

section ClaimC3

variable {D : Type}

/-- A Subscription whose id is in the cancelled set reads `live` as
false. -/
theorem live_eq_false_of_mem {s : SubEventState D} {i : Nat}
    (h : i ∈ s.cancelled) : Subscription.live i s = false := by
  simp [Subscription.live, h]

/-- `cancel()` on a Subscription whose `_cancel` is already null is a no-op
returning false. -/
theorem cancel_of_cancelled (o : IEventOptions D) {i : Nat}
    {s : SubEventState D} (h : i ∈ s.cancelled) :
    Subscription.cancel o i s = (false, s) := by
  simp [Subscription.cancel, h]

/-- Claim C3: the first `cancel()` on a live Subscription removes exactly
that subscriber's record from the owning broadcaster (keeping the other
records, in order), sets `live` to false, and returns true; a second
`cancel()` is a no-op returning false that leaves the whole broadcaster
state unchanged; and `live` stays false after any further sequence of API
operations. -/
theorem claim_C3_cancel_idempotent (o : IEventOptions D)
    (s : SubEventState D) (i : Nat)
    (hd : (s.subs.map fun x => x.id).Nodup)
    (hm : i ∈ s.subs.map fun x => x.id)
    (hc : i ∉ s.cancelled) :
    (Subscription.cancel o i s).1 = true ∧
      (Subscription.cancel o i s).2.subs =
        s.subs.filter (fun x => ! (x.id == i)) ∧
      Subscription.live i (Subscription.cancel o i s).2 = false ∧
      Subscription.cancel o i (Subscription.cancel o i s).2 =
        (false, (Subscription.cancel o i s).2) ∧
      ∀ ops : List Op,
        Subscription.live i (applyOps o ops (Subscription.cancel o i s).2) =
          false := by
  have hcc : i ∈ (Subscription.cancel o i s).2.cancelled := by
    simp only [Subscription.cancel, if_neg hc, SubEvent._cancelSub]
    exact List.mem_append_right _ (List.mem_singleton.mpr rfl)
  refine ⟨?_, ?_, ?_, ?_, ?_⟩
  · simp [Subscription.cancel, hc]
  · simp only [Subscription.cancel, if_neg hc, SubEvent._cancelSub]
    exact spliceIndexOf_eq_filter hd hm
  · exact live_eq_false_of_mem hcc
  · exact cancel_of_cancelled o hcc
  · intro ops
    exact live_eq_false_of_mem (applyOps_cancelled_mono o ops _ hcc)

end ClaimC3

/-- Witness for claim C3 at a concrete run: two subscribers (ids 0, 1),
cancelling id 0 succeeds once, leaves only id 1 registered, and every
further `cancel` or other operation keeps the Subscription dead. -/
theorem claim_C3_cancel_idempotent_witness :
    (Subscription.cancel (⟨0, none, false⟩ : IEventOptions Nat) 0
        (subscribeN ⟨0, none, false⟩ 2 (initialState Nat))).1 = true ∧
      (Subscription.cancel (⟨0, none, false⟩ : IEventOptions Nat) 0
          (subscribeN ⟨0, none, false⟩ 2 (initialState Nat))).2.subs =
        (subscribeN ⟨0, none, false⟩ 2 (initialState Nat)).subs.filter
          (fun x => ! (x.id == 0)) ∧
      Subscription.live 0
        (Subscription.cancel (⟨0, none, false⟩ : IEventOptions Nat) 0
            (subscribeN ⟨0, none, false⟩ 2 (initialState Nat))).2 = false ∧
      Subscription.cancel (⟨0, none, false⟩ : IEventOptions Nat) 0
          (Subscription.cancel (⟨0, none, false⟩ : IEventOptions Nat) 0
              (subscribeN ⟨0, none, false⟩ 2 (initialState Nat))).2 =
        (false,
          (Subscription.cancel (⟨0, none, false⟩ : IEventOptions Nat) 0
              (subscribeN ⟨0, none, false⟩ 2 (initialState Nat))).2) ∧
      Subscription.live 0
        (applyOps ⟨0, none, false⟩ [Op.subscribeOp, Op.cancelAllOp]
          (Subscription.cancel (⟨0, none, false⟩ : IEventOptions Nat) 0
              (subscribeN ⟨0, none, false⟩ 2 (initialState Nat))).2) = false := by
  have h := claim_C3_cancel_idempotent (⟨0, none, false⟩ : IEventOptions Nat)
    (subscribeN ⟨0, none, false⟩ 2 (initialState Nat)) 0
    (by decide) (by decide) (by decide)
  exact ⟨h.1, h.2.1, h.2.2.1, h.2.2.2.1,
    h.2.2.2.2 [Op.subscribeOp, Op.cancelAllOp]⟩

end SubEvents

namespace SubEvents

open SubEvent Subscription

section ClaimC4

variable {D V E : Type}

/-- Callbacks that neither throw nor mutate leave the broadcaster state
unchanged through the synchronous iteration. -/
theorem runSync_state_pure (v : V) :
    ∀ (l : List (ISubscriber D)) (s : SubEventState D),
      (runSync (fun _ _ t => (t, (none : Option E))) v l s).2.1 = s := by
  intro l
  induction l with
  | nil => intro s; rfl
  | cons x rest ih => intro s; simpa [runSync] using ih s

/-- Filtering one id out of a split list with that id only in the middle
removes exactly the middle element. -/
theorem filter_ne_of_split {A B : List (ISubscriber D)} {x : ISubscriber D}
    {i : Nat} (hx : x.id = i) (hA : i ∉ A.map fun y => y.id)
    (hB : i ∉ B.map fun y => y.id) :
    (A ++ x :: B).filter (fun y => ! (y.id == i)) = A ++ B := by
  have hAf : A.filter (fun y => ! (y.id == i)) = A := by
    rw [List.filter_eq_self]
    intro y hy
    simp only [Bool.not_eq_true', beq_eq_false_iff_ne, ne_eq]
    intro hyi
    exact hA (List.mem_map.mpr ⟨y, hy, hyi⟩)
  have hBf : B.filter (fun y => ! (y.id == i)) = B := by
    rw [List.filter_eq_self]
    intro y hy
    simp only [Bool.not_eq_true', beq_eq_false_iff_ne, ne_eq]
    intro hyi
    exact hB (List.mem_map.mpr ⟨y, hy, hyi⟩)
  rw [List.filter_append, List.filter_cons]
  simp only [hx, beq_self_eq_true, Bool.not_true, Bool.false_eq_true,
    if_false, hAf, hBf]

/-- Claim C4: with `max = K > 0` and more than `K` live subscribers, the
emission snapshot is exactly the first `K` registered subscribers in
registration order, every emit variant reports `K` recipients, subscribers
beyond the first `K` stay registered (a pure emission leaves the state
unchanged) and receive nothing, and after cancelling any subscriber among
the first `K`, the very next snapshot includes the subscriber that was
previously at position `K + 1`. -/
theorem claim_C4_max_cap (o : IEventOptions D) (s : SubEventState D)
    (K : Nat) (hmax : o.max = K) (hK : 0 < K) (hlen : K < s.subs.length)
    (hd : (s.subs.map fun x => x.id).Nodup) :
    _getRecipients o s = s.subs.take K ∧
      (∀ b, (emit o b s).1 = K) ∧
      (∀ b, (emitSafe o b s).1 = K) ∧
      (∀ (cb : Nat → V → SubEventState D → SubEventState D × Option E) v,
        (∀ i v' s', (cb i v' s').2 = none) →
        (emitSync o cb v s).2.2 = Except.ok K) ∧
      (∀ (cb : Nat → V → SubEventState D → SubEventState D × Option E) v,
        (emitSyncSafe o cb v s).2.2.1 = K) ∧
      (∀ v : V,
        (emitSync o (fun _ _ t => (t, (none : Option E))) v s).2.1 = s) ∧
      (∀ (cb : Nat → V → SubEventState D → SubEventState D × Option E) v,
        (∀ i v' s', (cb i v' s').2 = none) →
        ∀ x ∈ s.subs.drop K, x.id ∉ (emitSync o cb v s).1.map Prod.fst) ∧
      (∀ (A B : List (ISubscriber D)) (x y : ISubscriber D)
          (C : List (ISubscriber D)),
        s.subs.take K = A ++ x :: B → s.subs.drop K = y :: C →
        x.id ∉ s.cancelled →
        (Subscription.cancel o x.id s).1 = true ∧
          y ∈ _getRecipients o (Subscription.cancel o x.id s).2) := by
  have hrcp : _getRecipients o s = s.subs.take K := by
    rw [_getRecipients_max_pos o s (by rw [hmax]; exact hK), hmax]
  have hlenK : (s.subs.take K).length = K := by
    rw [List.length_take]
    exact Nat.min_eq_left hlen.le
  refine ⟨hrcp, ?_, ?_, ?_, ?_, ?_, ?_, ?_⟩
  · intro b
    simp only [emit]
    rw [hrcp, hlenK]
  · intro b
    simp only [emitSafe]
    rw [hrcp, hlenK]
  · intro cb v h
    have hr := runSync_nothrow cb v (s.subs.take K) s
      (fun x _ s' => h x.id v s')
    simp only [emitSync, hrcp, hr.2, hlenK]
  · intro cb v
    simp only [emitSyncSafe]
    rw [hrcp, hlenK]
  · intro v
    simp only [emitSync]
    exact runSync_state_pure v _ s
  · intro cb v h x hx hmem
    have hr := runSync_nothrow cb v (s.subs.take K) s
      (fun z _ s' => h z.id v s')
    simp only [emitSync, hrcp, hr.1] at hmem
    rw [List.map_map] at hmem
    have hfst : (Prod.fst ∘ fun y : ISubscriber D => (y.id, v)) =
        fun y : ISubscriber D => y.id := rfl
    rw [hfst, List.map_take] at hmem
    have hd' : ((s.subs.map fun z => z.id).take K ++
        (s.subs.map fun z => z.id).drop K).Nodup := by
      rw [List.take_append_drop]
      exact hd
    have hdisj := List.disjoint_of_nodup_append hd'
    have hxdrop : x.id ∈ (s.subs.map fun z => z.id).drop K := by
      rw [← List.map_drop]
      exact List.mem_map_of_mem _ hx
    exact hdisj hmem hxdrop
  · intro A B x y C htake hdrop hc
    have hxmem : x ∈ s.subs := by
      refine List.take_subset K s.subs ?_
      rw [htake]
      exact List.mem_append_right A (List.mem_cons_self x B)
    have hmx : x.id ∈ s.subs.map fun z => z.id := List.mem_map_of_mem _ hxmem
    have hcan : Subscription.cancel o x.id s =
        (true, SubEvent._cancelSub o x.id s) := by
      simp [Subscription.cancel, hc]
    have hsubs' : (Subscription.cancel o x.id s).2.subs =
        s.subs.filter fun z => ! (z.id == x.id) := by
      rw [hcan]
      simp only [SubEvent._cancelSub]
      exact spliceIndexOf_eq_filter hd hmx
    have hsubsSplit : s.subs = A ++ x :: (B ++ y :: C) := by
      conv_lhs => rw [← List.take_append_drop K s.subs]
      rw [htake, hdrop]
      simp [List.append_assoc]
    have hd2 : (A.map (fun z => z.id) ++
        x.id :: (B ++ y :: C).map fun z => z.id).Nodup := by
      have : ((A ++ x :: (B ++ y :: C)).map fun z => z.id).Nodup := by
        rw [← hsubsSplit]
        exact hd
      rwa [List.map_append, List.map_cons] at this
    have hdisj := List.disjoint_of_nodup_append hd2
    have hxA : x.id ∉ A.map fun z => z.id := fun hmemA =>
      hdisj hmemA (List.mem_cons_self _ _)
    have hxBC : x.id ∉ (B ++ y :: C).map fun z => z.id :=
      (List.nodup_cons.mp (List.nodup_append.mp hd2).2.1).1
    have hfilter : s.subs.filter (fun z => ! (z.id == x.id)) =
        A ++ (B ++ y :: C) := by
      rw [hsubsSplit]
      exact filter_ne_of_split rfl hxA hxBC
    have hlenAB : (A ++ B).length + 1 = K := by
      have hlt := congrArg List.length htake
      rw [hlenK] at hlt
      simp only [List.length_append, List.length_cons] at hlt ⊢
      omega
    refine ⟨by rw [hcan], ?_⟩
    rw [_getRecipients_max_pos o _ (by rw [hmax]; exact hK), hmax, hsubs',
      hfilter]
    have hassoc : A ++ (B ++ y :: C) = (A ++ B) ++ y :: C := by
      simp [List.append_assoc]
    rw [hassoc, ← hlenAB, List.take_append]
    exact List.mem_append_right _ (by simp)

end ClaimC4

end SubEvents

namespace SubEvents

open SubEvent Subscription

/-- Witness for claim C4 at a concrete run: `max = 2` with three
subscribers (ids 0, 1, 2); the snapshot is the first two, every variant
reports 2 recipients, id 2 stays registered but receives nothing, and after
cancelling id 0 the next snapshot includes id 2. -/
theorem claim_C4_max_cap_witness :
    SubEvent._getRecipients (⟨2, none, false⟩ : IEventOptions Nat)
        (subscribeN ⟨2, none, false⟩ 3 (initialState Nat)) =
      (subscribeN ⟨2, none, false⟩ 3 (initialState Nat)).subs.take 2 ∧
    (SubEvent.emit (⟨2, none, false⟩ : IEventOptions Nat) true
        (subscribeN ⟨2, none, false⟩ 3 (initialState Nat))).1 = 2 ∧
    (SubEvent.emitSafe (⟨2, none, false⟩ : IEventOptions Nat) true
        (subscribeN ⟨2, none, false⟩ 3 (initialState Nat))).1 = 2 ∧
    (SubEvent.emitSync (⟨2, none, false⟩ : IEventOptions Nat)
        (fun _ _ t => (t, (none : Option Nat))) (9 : Nat)
        (subscribeN ⟨2, none, false⟩ 3 (initialState Nat))).2.2 =
      Except.ok 2 ∧
    (SubEvent.emitSyncSafe (⟨2, none, false⟩ : IEventOptions Nat)
        (fun _ _ t => (t, (none : Option Nat))) (9 : Nat)
        (subscribeN ⟨2, none, false⟩ 3 (initialState Nat))).2.2.1 = 2 ∧
    (SubEvent.emitSync (⟨2, none, false⟩ : IEventOptions Nat)
        (fun _ _ t => (t, (none : Option Nat))) (9 : Nat)
        (subscribeN ⟨2, none, false⟩ 3 (initialState Nat))).2.1 =
      subscribeN ⟨2, none, false⟩ 3 (initialState Nat) ∧
    ((⟨2, none⟩ : ISubscriber Nat).id ∉
      (SubEvent.emitSync (⟨2, none, false⟩ : IEventOptions Nat)
          (fun _ _ t => (t, (none : Option Nat))) (9 : Nat)
          (subscribeN ⟨2, none, false⟩ 3 (initialState Nat))).1.map
        Prod.fst) ∧
    (Subscription.cancel (⟨2, none, false⟩ : IEventOptions Nat)
        (⟨0, none⟩ : ISubscriber Nat).id
        (subscribeN ⟨2, none, false⟩ 3 (initialState Nat))).1 = true ∧
    (⟨2, none⟩ : ISubscriber Nat) ∈
      SubEvent._getRecipients (⟨2, none, false⟩ : IEventOptions Nat)
        (Subscription.cancel (⟨2, none, false⟩ : IEventOptions Nat)
            (⟨0, none⟩ : ISubscriber Nat).id
            (subscribeN ⟨2, none, false⟩ 3 (initialState Nat))).2 := by
  have h := claim_C4_max_cap (V := Nat) (E := Nat)
    (⟨2, none, false⟩ : IEventOptions Nat)
    (subscribeN ⟨2, none, false⟩ 3 (initialState Nat)) 2 rfl
    (by decide) (by decide) (by decide)
  have h8 := h.2.2.2.2.2.2.2 [] [⟨1, none⟩] ⟨0, none⟩ ⟨2, none⟩ []
    (by decide) (by decide) (by decide)
  exact ⟨h.1, h.2.1 true, h.2.2.1 true,
    h.2.2.2.1 (fun _ _ t => (t, none)) 9 (fun _ _ _ => rfl),
    h.2.2.2.2.1 (fun _ _ t => (t, none)) 9,
    h.2.2.2.2.2.1 9,
    h.2.2.2.2.2.2.1 (fun _ _ t => (t, none)) 9 (fun _ _ _ => rfl)
      ⟨2, none⟩ (by decide),
    h8.1, h8.2⟩

end SubEvents

namespace SubEvents

open SubEvent Subscription

section ClaimC5

variable {D V E : Type}

/-- Claim C5: `emitSyncSafe(value, onError)` over a snapshot in which
exactly the callback of `x` throws (`e`): every subscriber of the snapshot
- the thrower included - is still invoked exactly once with the value, in
snapshot order; `onError` receives exactly the one error `e`; and the call
returns the full snapshot size (it returns normally - `emitSyncSafe` is a
total function of the model, the throw having been caught inside the
iteration). -/
theorem claim_C5_emitSyncSafe_isolation (o : IEventOptions D)
    (s : SubEventState D)
    (cb : Nat → V → SubEventState D → SubEventState D × Option E) (v : V)
    (e : E) (l₁ l₂ : List (ISubscriber D)) (x : ISubscriber D)
    (hsplit : _getRecipients o s = l₁ ++ x :: l₂)
    (hothers : ∀ y ∈ l₁ ++ l₂, ∀ s', (cb y.id v s').2 = none)
    (hx : ∀ s', (cb x.id v s').2 = some e) :
    (emitSyncSafe o cb v s).1 =
        (_getRecipients o s).map (fun y => (y.id, v)) ∧
      (emitSyncSafe o cb v s).2.1 = [e] ∧
      (emitSyncSafe o cb v s).2.2.1 = (_getRecipients o s).length := by
  refine ⟨?_, ?_, rfl⟩
  · simp only [emitSyncSafe]
    exact runSyncSafe_trace cb v _ s
  · simp only [emitSyncSafe]
    rw [hsplit]
    exact runSyncSafe_errs_single cb v e x l₂ l₁ s hothers hx

end ClaimC5

/-- Witness for claim C5 at a concrete run: three subscribers (ids 0, 1,
2); the callback of id 1 always throws 7; ids 0, 1, 2 are all invoked with
the value, onError collects exactly [7], and the call reports 3
recipients. -/
theorem claim_C5_emitSyncSafe_isolation_witness :
    (SubEvent.emitSyncSafe (⟨0, none, false⟩ : IEventOptions Nat)
          (fun i _ t => (t, if i = 1 then some 7 else none)) (9 : Nat)
          (subscribeN ⟨0, none, false⟩ 3 (initialState Nat))).1 =
        (SubEvent._getRecipients ⟨0, none, false⟩
            (subscribeN ⟨0, none, false⟩ 3 (initialState Nat))).map
          (fun y => (y.id, 9)) ∧
      (SubEvent.emitSyncSafe (⟨0, none, false⟩ : IEventOptions Nat)
          (fun i _ t => (t, if i = 1 then some 7 else none)) (9 : Nat)
          (subscribeN ⟨0, none, false⟩ 3 (initialState Nat))).2.1 = [7] ∧
      (SubEvent.emitSyncSafe (⟨0, none, false⟩ : IEventOptions Nat)
          (fun i _ t => (t, if i = 1 then some 7 else none)) (9 : Nat)
          (subscribeN ⟨0, none, false⟩ 3 (initialState Nat))).2.2.1 =
        (SubEvent._getRecipients ⟨0, none, false⟩
            (subscribeN ⟨0, none, false⟩ 3 (initialState Nat))).length := by
  exact claim_C5_emitSyncSafe_isolation
    (⟨0, none, false⟩ : IEventOptions Nat)
    (subscribeN ⟨0, none, false⟩ 3 (initialState Nat))
    (fun i _ t => (t, if i = 1 then some 7 else none)) 9 7
    [⟨0, none⟩] [⟨2, none⟩] ⟨1, none⟩
    (by decide)
    (fun y hy s' => by fin_cases hy <;> rfl)
    (fun s' => rfl)

end SubEvents

namespace SubEvents

open SubEvent Subscription

section ClaimC6

variable {D : Type}

/-- `cancelAll()` on an empty registry changes nothing and returns 0 (and
in particular invokes no onCancel hook). -/
theorem cancelAll_empty (o : IEventOptions D) (s : SubEventState D)
    (h : s.subs = []) : SubEvent.cancelAll o s = (0, s) := by
  cases s with
  | mk subs cancelled nextId subLog cancelLog =>
    simp only at h
    subst h
    simp [SubEvent.cancelAll]

/-- Claim C6: `cancelAll()` on a broadcaster with `n` registered
subscriptions returns `n`, leaves `count` at 0, and sets the `live` flag of
every outstanding Subscription the broadcaster issued to false (given the
reachable-state property that every issued, not-yet-cancelled id is in the
registry); a second `cancelAll()` returns 0 and changes nothing; and
`cancelAll()` on an empty registry is a no-op returning 0 that invokes no
hooks (the whole state, hook logs included, is unchanged). -/
theorem claim_C6_cancelAll (o : IEventOptions D) (s : SubEventState D)
    (hLIR : ∀ i, i < s.nextId → i ∉ s.cancelled →
      i ∈ s.subs.map fun x => x.id) :
    (SubEvent.cancelAll o s).1 = SubEvent.count s ∧
      SubEvent.count (SubEvent.cancelAll o s).2 = 0 ∧
      (∀ i, i < s.nextId →
        Subscription.live i (SubEvent.cancelAll o s).2 = false) ∧
      SubEvent.cancelAll o (SubEvent.cancelAll o s).2 =
        (0, (SubEvent.cancelAll o s).2) ∧
      (s.subs = [] → SubEvent.cancelAll o s = (0, s)) := by
  refine ⟨rfl, rfl, ?_, ?_, ?_⟩
  · intro i hi
    by_cases hc : i ∈ s.cancelled
    · exact live_eq_false_of_mem (List.mem_append_left _ hc)
    · exact live_eq_false_of_mem
        (List.mem_append_right _ (hLIR i hi hc))
  · exact cancelAll_empty o _ rfl
  · intro h
    exact cancelAll_empty o s h

end ClaimC6

/-- Witness for claim C6 at a concrete run: two live subscriptions;
`cancelAll` returns 2, count drops to 0, both Subscriptions read `live` as
false, and a second `cancelAll` returns 0 without changing anything. -/
theorem claim_C6_cancelAll_witness :
    (SubEvent.cancelAll (⟨0, none, true⟩ : IEventOptions Nat)
        (subscribeN ⟨0, none, true⟩ 2 (initialState Nat))).1 =
      SubEvent.count (subscribeN ⟨0, none, true⟩ 2 (initialState Nat)) ∧
    SubEvent.count
        (SubEvent.cancelAll (⟨0, none, true⟩ : IEventOptions Nat)
          (subscribeN ⟨0, none, true⟩ 2 (initialState Nat))).2 = 0 ∧
    Subscription.live 1
        (SubEvent.cancelAll (⟨0, none, true⟩ : IEventOptions Nat)
          (subscribeN ⟨0, none, true⟩ 2 (initialState Nat))).2 = false ∧
    SubEvent.cancelAll (⟨0, none, true⟩ : IEventOptions Nat)
        (SubEvent.cancelAll (⟨0, none, true⟩ : IEventOptions Nat)
          (subscribeN ⟨0, none, true⟩ 2 (initialState Nat))).2 =
      (0, (SubEvent.cancelAll (⟨0, none, true⟩ : IEventOptions Nat)
          (subscribeN ⟨0, none, true⟩ 2 (initialState Nat))).2) := by
  have h := claim_C6_cancelAll (⟨0, none, true⟩ : IEventOptions Nat)
    (subscribeN ⟨0, none, true⟩ 2 (initialState Nat)) (by decide)
  exact ⟨h.1, h.2.1, h.2.2.1 1 (by decide), h.2.2.2.1⟩

end SubEvents

namespace SubEvents

open SubEvent Subscription

section ClaimC7

variable {D : Type}

/-- Removing a present id shortens the registry by exactly one. -/
theorem spliceIndexOf_length_of_mem {l : List (ISubscriber D)} {i : Nat}
    (hm : i ∈ l.map fun x => x.id) :
    (spliceIndexOf l i).length = l.length - 1 := by
  rcases List.mem_map.mp hm with ⟨y, hy, hyi⟩
  have hex : ∃ x, x ∈ l ∧ (x.id == i) = true := ⟨y, hy, by simp [hyi]⟩
  have hsome := List.findIdx?_eq_some_of_exists hex
  unfold spliceIndexOf
  rw [hsome]
  exact List.length_eraseIdx_of_lt (List.findIdx_lt_length_of_exists hex)

/-- Claim C7: each SubEventCount `subscribe` publishes exactly one
count-change event `(n-1, n)` (prev, new) where `n` is the new count; each
individual cancel of a live registered subscription publishes exactly one
event `(m+1, m)` where `m` is the count after removal; `cancelAll` from a
live count `c > 0` publishes exactly one event `(c, 0)` - not one per
subscriber - and returns `c`; `cancelAll` from count 0 publishes nothing,
changes nothing and returns 0; and concretely 3 subscribes followed by one
cancel publish exactly the sequence (0,1), (1,2), (2,3), (3,2). -/
theorem claim_C7_count_events (o : IEventOptions D) :
    (∀ s : SubEventCountState D,
      (SubEventCount.subscribe o s).2.countLog =
        s.countLog ++ [(s.ev.subs.length, s.ev.subs.length + 1)]) ∧
    (∀ (s : SubEventCountState D) (i : Nat),
      i ∈ (s.ev.subs.map fun x => x.id) → i ∉ s.ev.cancelled →
      (SubEventCount.cancel o i s).1 = true ∧
        (SubEventCount.cancel o i s).2.countLog =
          s.countLog ++ [(s.ev.subs.length, s.ev.subs.length - 1)]) ∧
    (∀ s : SubEventCountState D, 0 < s.ev.subs.length →
      SubEventCount.cancelAll o s =
        (s.ev.subs.length,
          ⟨(SubEvent.cancelAll o s.ev).2,
            s.countLog ++ [(s.ev.subs.length, 0)]⟩)) ∧
    (∀ s : SubEventCountState D, s.ev.subs.length = 0 →
      SubEventCount.cancelAll o s = (0, s)) ∧
    ((SubEventCount.cancel (⟨0, none, false⟩ : IEventOptions Nat) 1
        (SubEventCount.subscribe ⟨0, none, false⟩
          (SubEventCount.subscribe ⟨0, none, false⟩
            (SubEventCount.subscribe ⟨0, none, false⟩
              (SubEventCount.initial Nat)).2).2).2).2.countLog =
      [(0, 1), (1, 2), (2, 3), (3, 2)]) := by
  refine ⟨?_, ?_, ?_, ?_, by decide⟩
  · intro s
    simp [SubEventCount.subscribe, SubEvent.subscribe]
  · intro s i hm hc
    have hlen := spliceIndexOf_length_of_mem (l := s.ev.subs) hm
    have hpos : 0 < s.ev.subs.length := by
      rcases List.mem_map.mp hm with ⟨y, hy, _⟩
      exact List.length_pos.mpr (List.ne_nil_of_mem hy)
    refine ⟨by simp [SubEventCount.cancel, hc], ?_⟩
    simp only [SubEventCount.cancel, if_neg hc, SubEvent._cancelSub]
    rw [hlen, Nat.sub_add_cancel hpos]
  · intro s hpos
    simp only [SubEventCount.cancelAll, SubEvent.count]
    rw [if_pos (Nat.pos_iff_ne_zero.mp hpos)]
  · intro s hzero
    simp only [SubEventCount.cancelAll, SubEvent.count]
    rw [if_neg (by simp [hzero]), hzero]

end ClaimC7

/-- Witness for claim C7 at a concrete run: the 3-subscribes-1-cancel
sequence, one subscribe event on a fresh counter, one cancel event, one
bulk event for `cancelAll` from count 2, and the empty no-op. -/
theorem claim_C7_count_events_witness :
    ((SubEventCount.subscribe (⟨0, none, false⟩ : IEventOptions Nat)
        (SubEventCount.initial Nat)).2.countLog =
      (SubEventCount.initial Nat).countLog ++
        [((SubEventCount.initial Nat).ev.subs.length,
          (SubEventCount.initial Nat).ev.subs.length + 1)]) ∧
    ((SubEventCount.cancel (⟨0, none, false⟩ : IEventOptions Nat) 0
        (SubEventCount.subscribe ⟨0, none, false⟩
          (SubEventCount.initial Nat)).2).1 = true) ∧
    (SubEventCount.cancelAll (⟨0, none, false⟩ : IEventOptions Nat)
        (SubEventCount.subscribe ⟨0, none, false⟩
          (SubEventCount.subscribe ⟨0, none, false⟩
            (SubEventCount.initial Nat)).2).2 =
      ((SubEventCount.subscribe ⟨0, none, false⟩
          (SubEventCount.subscribe ⟨0, none, false⟩
            (SubEventCount.initial Nat)).2).2.ev.subs.length,
        ⟨(SubEvent.cancelAll ⟨0, none, false⟩
            (SubEventCount.subscribe ⟨0, none, false⟩
              (SubEventCount.subscribe ⟨0, none, false⟩
                (SubEventCount.initial Nat)).2).2.ev).2,
          (SubEventCount.subscribe ⟨0, none, false⟩
              (SubEventCount.subscribe ⟨0, none, false⟩
                (SubEventCount.initial Nat)).2).2.countLog ++
            [((SubEventCount.subscribe ⟨0, none, false⟩
                (SubEventCount.subscribe ⟨0, none, false⟩
                  (SubEventCount.initial Nat)).2).2.ev.subs.length, 0)]⟩)) ∧
    (SubEventCount.cancelAll (⟨0, none, false⟩ : IEventOptions Nat)
        (SubEventCount.initial Nat) = (0, SubEventCount.initial Nat)) ∧
    ((SubEventCount.cancel (⟨0, none, false⟩ : IEventOptions Nat) 1
        (SubEventCount.subscribe ⟨0, none, false⟩
          (SubEventCount.subscribe ⟨0, none, false⟩
            (SubEventCount.subscribe ⟨0, none, false⟩
              (SubEventCount.initial Nat)).2).2).2).2.countLog =
      [(0, 1), (1, 2), (2, 3), (3, 2)]) := by
  have h := claim_C7_count_events (⟨0, none, false⟩ : IEventOptions Nat)
  exact ⟨h.1 (SubEventCount.initial Nat),
    (h.2.1 (SubEventCount.subscribe ⟨0, none, false⟩
      (SubEventCount.initial Nat)).2 0 (by decide) (by decide)).1,
    h.2.2.1 _ (by decide),
    h.2.2.2.1 (SubEventCount.initial Nat) (by decide),
    h.2.2.2.2⟩

end SubEvents

namespace SubEvents

open SubEvent Subscription

section ClaimC8

variable {D : Type}

/-- Claim C8: with `onSubscribe` and `onCancel` hooks configured,
`subscribe` invokes `onSubscribe` synchronously with the new subscriber's
context record before returning (the hook stores its auxiliary data in that
record), and cancelling that subscription invokes `onCancel` with the same
context record, so the data stored by `onSubscribe` (here `f id`) is what
`onCancel` reads. -/
theorem claim_C8_hooks (o : IEventOptions D) (f : Nat → D)
    (hsub : o.onSubscribe = some f) (hcan : o.hasOnCancel = true)
    (s : SubEventState D)
    (hbound : ∀ x ∈ s.subs, x.id < s.nextId)
    (hcbound : ∀ i ∈ s.cancelled, i < s.nextId) :
    (SubEvent.subscribe o s).1 = s.nextId ∧
      (SubEvent.subscribe o s).2.subLog =
        s.subLog ++ [(s.nextId, some (f s.nextId))] ∧
      (Subscription.cancel o (SubEvent.subscribe o s).1
          (SubEvent.subscribe o s).2).1 = true ∧
      (Subscription.cancel o (SubEvent.subscribe o s).1
          (SubEvent.subscribe o s).2).2.cancelLog =
        (SubEvent.subscribe o s).2.cancelLog ++
          [(s.nextId, some (f s.nextId))] := by
  have hnc : s.nextId ∉ s.cancelled := fun h =>
    absurd (hcbound _ h) (Nat.lt_irrefl _)
  have hnc' : (SubEvent.subscribe o s).1 ∉
      (SubEvent.subscribe o s).2.cancelled := hnc
  have hfind : ((SubEvent.subscribe o s).2.subs.find?
      (fun x => x.id == (SubEvent.subscribe o s).1)) =
        some ⟨s.nextId, some (f s.nextId)⟩ := by
    show ((s.subs ++
        [(⟨s.nextId, o.onSubscribe.map fun g => g s.nextId⟩ :
          ISubscriber D)]).find? (fun x => x.id == s.nextId)) =
      some ⟨s.nextId, some (f s.nextId)⟩
    rw [List.find?_append]
    have h1 : s.subs.find? (fun x => x.id == s.nextId) = none := by
      rw [List.find?_eq_none]
      intro x hx
      simp only [beq_iff_eq]
      exact Nat.ne_of_lt (hbound x hx)
    rw [h1, hsub]
    simp
  refine ⟨rfl, ?_, ?_, ?_⟩
  · simp [SubEvent.subscribe, hsub]
  · simp only [Subscription.cancel, if_neg hnc']
  · simp only [Subscription.cancel, if_neg hnc', SubEvent._cancelSub, hfind]
    simp [hcan]
    rfl

end ClaimC8

/-- Witness for claim C8 at a concrete run: a fresh broadcaster whose
onSubscribe hook stores `id + 100`; subscribing yields id 0 and logs the
hook invocation with data 100, and cancelling logs onCancel with the same
context data 100. -/
theorem claim_C8_hooks_witness :
    (SubEvent.subscribe (⟨0, some (fun i => i + 100), true⟩ :
        IEventOptions Nat) (initialState Nat)).1 = 0 ∧
      (SubEvent.subscribe (⟨0, some (fun i => i + 100), true⟩ :
          IEventOptions Nat) (initialState Nat)).2.subLog =
        [] ++ [(0, some 100)] ∧
      (Subscription.cancel (⟨0, some (fun i => i + 100), true⟩ :
          IEventOptions Nat)
        (SubEvent.subscribe (⟨0, some (fun i => i + 100), true⟩ :
            IEventOptions Nat) (initialState Nat)).1
        (SubEvent.subscribe (⟨0, some (fun i => i + 100), true⟩ :
            IEventOptions Nat) (initialState Nat)).2).1 = true ∧
      (Subscription.cancel (⟨0, some (fun i => i + 100), true⟩ :
          IEventOptions Nat)
        (SubEvent.subscribe (⟨0, some (fun i => i + 100), true⟩ :
            IEventOptions Nat) (initialState Nat)).1
        (SubEvent.subscribe (⟨0, some (fun i => i + 100), true⟩ :
            IEventOptions Nat) (initialState Nat)).2).2.cancelLog =
        (SubEvent.subscribe (⟨0, some (fun i => i + 100), true⟩ :
            IEventOptions Nat) (initialState Nat)).2.cancelLog ++
          [(0, some 100)] := by
  exact claim_C8_hooks (⟨0, some (fun i => i + 100), true⟩ :
      IEventOptions Nat) (fun i => i + 100) rfl rfl (initialState Nat)
    (by intro x hx; cases hx) (by intro i hi; cases hi)

end SubEvents

namespace SubEvents

open SubEvent Subscription

/-- Claim C9: the EventConsumer facade: its public surface contains none of
`emit`, `emitSync`, `emitSafe`, `emitSyncSafe` or `cancelAll`; its `count`
and `subscribe` forward to the wrapped broadcaster and return exactly what
the same call on the wrapped broadcaster returns; and per the source
signatures every public member returns a number, a Subscription, a Promise
or a stats record - never a broadcaster reference, so the wrapped instance
is not reachable through the public surface. -/
theorem claim_C9_consumer_facade :
    ("emit" ∉ EventConsumer.publicOps ∧
      "emitSync" ∉ EventConsumer.publicOps ∧
      "emitSafe" ∉ EventConsumer.publicOps ∧
      "emitSyncSafe" ∉ EventConsumer.publicOps ∧
      "cancelAll" ∉ EventConsumer.publicOps) ∧
    (∀ (D : Type) (wrapped : SubEventState D),
      EventConsumer.count wrapped = SubEvent.count wrapped) ∧
    (∀ (D : Type) (o : IEventOptions D) (wrapped : SubEventState D),
      EventConsumer.subscribe o wrapped = SubEvent.subscribe o wrapped) ∧
    (∀ n ∈ EventConsumer.publicOps,
      EventConsumer.resultKind n ≠ some ConsumerResultKind.event) := by
  refine ⟨by decide, fun D w => rfl, fun D o w => rfl, by decide⟩

/-- Claim C10: an `emit` or `emitSafe` call with no live subscribers at
call time (empty snapshot) returns 0 and schedules no thunk at all - in
particular the thunk that would invoke `onFinished` (the one at
`index === r.length - 1`) is never scheduled, so the completion callback is
never invoked for an empty broadcast. -/
theorem claim_C10_empty_emit_no_onFinished {D : Type} (o : IEventOptions D)
    (s : SubEventState D) (h : s.subs = []) (b : Bool) :
    emit o b s = (0, []) ∧ emitSafe o b s = (0, []) := by
  have hrcp : _getRecipients o s = [] := by
    unfold SubEvent._getRecipients
    rw [h]
    simp
  constructor <;> simp [SubEvent.emit, SubEvent.emitSafe, hrcp]

/-- Witness for claim C10: a fresh broadcaster; `emit` and `emitSafe` with
an onFinished callback supplied return 0 and schedule nothing. -/
theorem claim_C10_empty_emit_no_onFinished_witness :
    SubEvent.emit (⟨0, none, false⟩ : IEventOptions Nat) true
        (initialState Nat) = (0, []) ∧
      SubEvent.emitSafe (⟨0, none, false⟩ : IEventOptions Nat) true
        (initialState Nat) = (0, []) :=
  claim_C10_empty_emit_no_onFinished ⟨0, none, false⟩ (initialState Nat)
    rfl true

end SubEvents

namespace SubEvents

/-- Witness for claim C9 at concrete inputs: `emit` is not on the surface,
`count` and `subscribe` forward for a concrete wrapped broadcaster, and the
`subscribe` member's return shape is not a broadcaster reference. -/
theorem claim_C9_consumer_facade_witness :
    "emit" ∉ EventConsumer.publicOps ∧
      EventConsumer.count
          (subscribeN (⟨0, none, false⟩ : IEventOptions Nat) 2
            (initialState Nat)) =
        SubEvent.count
          (subscribeN (⟨0, none, false⟩ : IEventOptions Nat) 2
            (initialState Nat)) ∧
      EventConsumer.subscribe (⟨0, none, false⟩ : IEventOptions Nat)
          (initialState Nat) =
        SubEvent.subscribe (⟨0, none, false⟩ : IEventOptions Nat)
          (initialState Nat) ∧
      EventConsumer.resultKind "subscribe" ≠ some ConsumerResultKind.event :=
  ⟨claim_C9_consumer_facade.1.1,
    claim_C9_consumer_facade.2.1 Nat _,
    claim_C9_consumer_facade.2.2.1 Nat _ _,
    claim_C9_consumer_facade.2.2.2 "subscribe" (by decide)⟩

end SubEvents
